import Mathlib

/-!
# Verification of the tofu particle-field engine

Shallow embedding of the tofu WebGPU particle engine (shape registry,
density sampler, NCA engine, k-means OT engine, physics kernel,
orchestrator) over exact rational arithmetic, together with theorems
settling the specification claims.

Conventions:
* f32 values are modelled as `ℚ`; transcendental f32 builtins (`sin`,
  `length`) are passed as explicit function parameters, since the claims
  under scrutiny do not depend on their values.
* GPU buffers are modelled as functions `ℕ → ℚ` (or `ℕ → ℚ × ℚ`).
* The WGSL `i32(f32)` conversion truncates toward zero; it is modelled
  by `Tofu.i32cast`.

The file is organised as: all definitions first, then all theorems.
-/

namespace Tofu

-- ════════════════════════════════════════════════════════════════════
-- Basic helpers
-- ════════════════════════════════════════════════════════════════════

/-- WGSL `clamp(x, lo, hi) = min(max(x, lo), hi)` on rationals. -/
def clampQ (x lo hi : ℚ) : ℚ := min (max x lo) hi

/-- WGSL `mix(x, y, a) = x * (1 - a) + y * a` on rationals. -/
def mixQ (x y a : ℚ) : ℚ := x * (1 - a) + y * a

/-- Componentwise `mix` on 2-vectors. -/
def mixV (p q : ℚ × ℚ) (a : ℚ) : ℚ × ℚ := (mixQ p.1 q.1 a, mixQ p.2 q.2 a)

/-- Membership of a 2-vector in the NDC box `[-1, +1]²`. -/
def inBox (p : ℚ × ℚ) : Prop :=
  -1 ≤ p.1 ∧ p.1 ≤ 1 ∧ -1 ≤ p.2 ∧ p.2 ≤ 1

instance (p : ℚ × ℚ) : Decidable (inBox p) := by
  unfold inBox; infer_instance

/-- Membership of a 2-vector in the closed interior box `[-0.85, +0.85]²`. -/
def inBox085 (p : ℚ × ℚ) : Prop :=
  -(85/100) ≤ p.1 ∧ p.1 ≤ 85/100 ∧ -(85/100) ≤ p.2 ∧ p.2 ≤ 85/100

instance (p : ℚ × ℚ) : Decidable (inBox085 p) := by
  unfold inBox085; infer_instance

/-- Strict membership in the open interior box `(-0.85, +0.85)²`. -/
def strictlyInside085 (p : ℚ × ℚ) : Prop :=
  -(85/100) < p.1 ∧ p.1 < 85/100 ∧ -(85/100) < p.2 ∧ p.2 < 85/100

instance (p : ℚ × ℚ) : Decidable (strictlyInside085 p) := by
  unfold strictlyInside085; infer_instance

/-- The WGSL `i32(x)` conversion: truncation toward zero. -/
def i32cast (x : ℚ) : ℤ := if 0 ≤ x then ⌊x⌋ else -⌊-x⌋

-- ════════════════════════════════════════════════════════════════════
-- Shape registry (src/shapes/registry.js, two revisions in the repo)
-- ════════════════════════════════════════════════════════════════════

namespace Registry

/-- JS `String.prototype.toLowerCase` restricted to the ASCII inputs used
by the registry. -/
def jsToLower (s : String) : String := ⟨s.data.map Char.toLower⟩

/-- JS `String.prototype.trim`: strip leading and trailing whitespace. -/
def jsTrim (s : String) : String :=
  ⟨(((s.data.dropWhile Char.isWhitespace).reverse.dropWhile
      Char.isWhitespace).reverse)⟩

/-- JS `replace(/\s+/g, "")`: delete every whitespace character. -/
def jsStripWS (s : String) : String :=
  ⟨s.data.filter (fun c => !c.isWhitespace)⟩

/-- The normalisation applied by `resolveShape`:
`input.toLowerCase().trim().replace(/\s+/g, "")`. -/
def normalizeInput (s : String) : String := jsStripWS (jsTrim (jsToLower s))

/-- JS `n.startsWith(k)`. -/
def jsStarts (n k : String) : Bool := k.data.isPrefixOf n.data

/-- Canonical keys of the base `REGISTRY` object
(src/shapes/registry.js revision A), in insertion order. -/
def REGISTRY_A : List String :=
  ["circle", "ring", "star", "star6", "diamond", "spiral", "heart",
   "wave", "hexgrid", "graphene"]

/-- The base `ALIASES` map (revision A). -/
def ALIASES_A : List (String × String) :=
  [("disc", "circle"), ("donut", "ring"), ("annulus", "ring"),
   ("star5", "star"), ("pentagon", "star"), ("hex", "hexgrid"),
   ("nanotube", "hexgrid"), ("graphene", "hexgrid"),
   ("lattice", "hexgrid"), ("helix", "spiral"), ("galaxy", "spiral"),
   ("love", "heart"), ("sine", "wave"), ("sinewave", "wave")]

/-- Canonical keys of the extended `REGISTRY` object (revision B of
registry.js, the three-tier registry), in insertion order. -/
def REGISTRY_B : List String :=
  ["circle", "ring", "star", "star6", "star8", "diamond", "triangle",
   "cross", "spiral", "heart", "wave", "hexgrid",
   "lissajous", "pretzel", "trefoil", "rose", "rose3", "lorenz",
   "rossler", "interference", "galaxy", "julia", "dragon", "rabbit",
   "mandelbrot", "dna", "nanotube", "crystal", "graphene"]

/-- The extended `ALIASES` map (revision B). -/
def ALIASES_B : List (String × String) :=
  [("disc", "circle"), ("donut", "ring"), ("annulus", "ring"),
   ("square", "diamond"), ("plus", "cross"), ("hex", "hexgrid"),
   ("butterfly", "lorenz"), ("attractor", "lorenz"),
   ("chaos", "rossler"), ("scroll", "rossler"),
   ("fringes", "interference"), ("diffraction", "interference"),
   ("waves", "interference"), ("fractal", "julia"),
   ("lightning", "julia"),
   ("doublehelix", "dna"), ("dnahelix", "dna"), ("tube", "nanotube"),
   ("cnt", "nanotube"), ("carbon", "nanotube"), ("cubic", "crystal"),
   ("bcc", "crystal"), ("lattice", "crystal"),
   ("carbongrid", "graphene")]

/-- Generic embedding of `resolveShape`: exact registry hit, then alias
hit, then first registry key that starts with the input, then the
`"circle"` fallback. -/
def resolveWith (registry : List String) (aliases : List (String × String))
    (input : String) : String :=
  let k := normalizeInput input
  if registry.contains k then k
  else
    match aliases.lookup k with
    | some c => c
    | none =>
      match registry.find? (fun n => jsStarts n k) with
      | some p => p
      | none => "circle"

/-- `resolveShape` of the base registry (revision A). -/
def resolveShape (input : String) : String :=
  resolveWith REGISTRY_A ALIASES_A input

/-- `resolveShape` of the extended three-tier registry (revision B). -/
def resolveShapeExt (input : String) : String :=
  resolveWith REGISTRY_B ALIASES_B input

end Registry

-- ════════════════════════════════════════════════════════════════════
-- Physics kernel (physics.wgsl, `cs_main`)
-- ════════════════════════════════════════════════════════════════════

namespace Physics

/-- `struct Atom { pos : vec2<f32>, vel : vec2<f32> }`. -/
structure Atom where
  pos : ℚ × ℚ
  vel : ℚ × ℚ
  deriving DecidableEq, Repr

/-- `struct SimParams { dt, time, has_targets, morph_t : f32 }`. -/
structure SimParams where
  dt : ℚ
  time : ℚ
  has_targets : ℚ
  morph_t : ℚ
  deriving DecidableEq, Repr

/-- `const N : u32 = 1500000u` of physics.wgsl. -/
def PHYS_N : ℕ := 1500000

/-- `const MAX_VEL : f32 = 0.55`. -/
def MAX_VEL : ℚ := 55/100

/-- `const BOUND : f32 = 0.92`. -/
def BOUND : ℚ := 92/100

/-- The physics compute kernel `cs_main` of physics.wgsl, one invocation.

`sinF` models the f32 `sin` builtin and `lengthF` the f32 `length`
builtin; both are passed explicitly because they are transcendental.
Returns `none` when the invocation early-returns (`idx ≥ N`), otherwise
the atom written to `dst_atoms[idx]`. -/
def cs_main (sinF : ℚ → ℚ) (lengthF : ℚ × ℚ → ℚ)
    (src_atoms : ℕ → Atom) (params : SimParams)
    (target_buf source_buf : ℕ → ℚ × ℚ) (idx : ℕ) : Option Atom :=
  if idx ≥ PHYS_N then none
  else
    let a := src_atoms idx
    if params.has_targets > 1/2 then
      -- Morph mode
      let t := clampQ params.morph_t 0 1
      let te := t * t * (3 - 2 * t)            -- smoothstep
      let sp := source_buf idx
      let tp := target_buf idx
      some { pos := mixV sp tp te,
             vel := ((tp.1 - sp.1) * (1 - te), (tp.2 - sp.2) * (1 - te)) }
    else
      -- Wander mode
      let fi : ℚ := (idx : ℚ)
      let t := params.time
      let fx := (sinF (t * (13/10) + fi * (731/100000)) +
                 sinF (t * (47/100) + fi * (1234/100000)) * (4/10)) * (55/1000)
      let fy := (sinF (t * (11/10) + fi * (512/100000)) +
                 sinF (t * (83/100) + fi * (891/100000)) * (4/10)) * (55/1000)
      let wallx0 := if a.pos.1 < -BOUND then (11/2) * (-BOUND - a.pos.1) else 0
      let wallx := if a.pos.1 > BOUND then -(11/2) * (a.pos.1 - BOUND) else wallx0
      let wally0 := if a.pos.2 < -BOUND then (11/2) * (-BOUND - a.pos.2) else 0
      let wally := if a.pos.2 > BOUND then -(11/2) * (a.pos.2 - BOUND) else wally0
      let vel1 := ((a.vel.1 + (fx + wallx) * params.dt) * (992/1000),
                   (a.vel.2 + (fy + wally) * params.dt) * (992/1000))
      let spd := lengthF vel1
      let vel2 := if spd > MAX_VEL
                  then (vel1.1 * (MAX_VEL / spd), vel1.2 * (MAX_VEL / spd))
                  else vel1
      some { pos := (clampQ (a.pos.1 + vel2.1 * params.dt) (-1) 1,
                     clampQ (a.pos.2 + vel2.2 * params.dt) (-1) 1),
             vel := vel2 }

end Physics

-- ════════════════════════════════════════════════════════════════════
-- Density sampler (src/shapes/registry.js, `sampleFromDensity`)
-- ════════════════════════════════════════════════════════════════════

namespace Sampler

/-- `GRID_SIZE = 128` (src/shapes/primitives.js). -/
def GRID_SIZE : ℕ := 128

/-- `N = 100000` (src/gpu/buffers.js), the atom count used by the
sampler. -/
def N_ATOMS : ℕ := 100000

/-- The binary-search loop of `sampleFromDensity`: find the first CDF
index (in `[lo, hi]`) whose cumulative value is `≥ r`. -/
def bsearch (cdf : List ℚ) (r : ℚ) (lo hi : ℕ) : ℕ :=
  if _h : lo < hi then
    let mid := (lo + hi) / 2
    if cdf.getD mid 0 < r then bsearch cdf r (mid + 1) hi
    else bsearch cdf r lo mid
  else lo
termination_by hi - lo
decreasing_by
  all_goals omega

/-- `sampleFromDensity(densityGrid)` with its random source made
explicit: `r` is the stream of `Math.random()` values (the fallback
branch consumes two per atom, the CDF branch three per atom).

Returns the `N_ATOMS × 2` output as a list of NDC positions. -/
def sampleFromDensity (densityGrid : List ℚ) (r : ℕ → ℚ) : List (ℚ × ℚ) :=
  let W := GRID_SIZE
  let H := GRID_SIZE
  let total := densityGrid.sum
  if total = 0 then
    -- Degenerate grid — uniform scatter fallback
    (List.range N_ATOMS).map (fun i =>
      ((r (2 * i) * 2 - 1) * (85/100),
       (r (2 * i + 1) * 2 - 1) * (85/100)))
  else
    let cdf := (densityGrid.scanl (fun cumsum g => cumsum + g / total) 0).tail
    (List.range N_ATOMS).map (fun i =>
      let u := r (3 * i)
      let lo := bsearch cdf u 0 (cdf.length - 1)
      let row := lo / W
      let col := lo % W
      (((col : ℚ) + r (3 * i + 1)) / (W : ℚ) * 2 - 1,
       ((row : ℚ) + r (3 * i + 2)) / (H : ℚ) * 2 - 1))

end Sampler

-- ════════════════════════════════════════════════════════════════════
-- NCA engine (wgsl/nca_step.wgsl, nca_extract.wgsl, src/gpu/nca.js)
-- ════════════════════════════════════════════════════════════════════

namespace NCA

/-- `const W : u32 = 128u` of nca_step.wgsl. -/
def W : ℕ := 128

/-- `const H : u32 = 128u` of nca_step.wgsl. -/
def H : ℕ := 128

/-- `const C : u32 = 16u` of nca_extract.wgsl (MLP state channels). -/
def C : ℕ := 16

/-- `NCA_STEPS = 64` of src/gpu/nca.js. -/
def NCA_STEPS : ℕ := 64

/-- `rd`: clamped read from `s_in` (border = repeat edge value). -/
def rd (s_in : ℕ → ℚ) (c r : ℤ) : ℚ :=
  let cc := min (max c 0) ((W : ℤ) - 1)
  let rr := min (max r 0) ((H : ℤ) - 1)
  s_in (rr.toNat * W + cc.toNat)

/-- One invocation grid of the `nca_step` kernel (reaction-diffusion
fallback): cells with `i < W * H` are written with the clamped update;
cells outside the dispatch range are not written (modelled as keeping the
input value). -/
def nca_step (goal s_in : ℕ → ℚ) : ℕ → ℚ := fun i =>
  if i < W * H then
    let col : ℤ := ((i % W : ℕ) : ℤ)
    let row : ℤ := ((i / W : ℕ) : ℤ)
    let s := s_in i
    let g := goal i
    -- 3×3 Gaussian kernel (excludes centre), weights sum to 1
    let avg :=
      rd s_in (col - 1) (row - 1) * (1/12) +
      rd s_in col       (row - 1) * (2/12) +
      rd s_in (col + 1) (row - 1) * (1/12) +
      rd s_in (col - 1) row       * (2/12) +
      rd s_in (col + 1) row       * (2/12) +
      rd s_in (col - 1) (row + 1) * (1/12) +
      rd s_in col       (row + 1) * (2/12) +
      rd s_in (col + 1) (row + 1) * (1/12)
    let laplacian := avg - s
    let reaction := s * (1 - s) * g
    let goal_pull := (g - s) * (4/100)
    let ds := laplacian * (15/100) + reaction * (10/100) + goal_pull
    clampQ (s + ds) 0 1
  else s_in i

/-- The RDS seed of `runRDS` (src/gpu/nca.js):
`seed[i] = max(0, min(1, goal[i] + (random() - 0.5) * 0.08))`. -/
def rdsSeed (goal : ℕ → ℚ) (r : ℕ → ℚ) : ℕ → ℚ := fun i =>
  max 0 (min 1 (goal i + (r i - 1/2) * (8/100)))

/-- `runRDS`: seed from the goal plus noise, then `steps` ping-pong
applications of the `nca_step` kernel. -/
def runRDS (goal : ℕ → ℚ) (r : ℕ → ℚ) (steps : ℕ) : ℕ → ℚ :=
  (nca_step goal)^[steps] (rdsSeed goal r)

/-- The `extract` kernel of nca_extract.wgsl: channel 0 of the
16-channel MLP state, clamped to `[0, 1]`; cells outside the dispatch
range are not written (modelled as 0, the alpha buffer's initial
contents). -/
def extract (state : ℕ → ℚ) : ℕ → ℚ := fun i =>
  if i < W * H then clampQ (state (i * C)) 0 1 else 0

end NCA

-- ════════════════════════════════════════════════════════════════════
-- GPU k-means (ot_gpu.js `runKMeans`, kmeans_update.wgsl,
-- kmeans_divide.wgsl — the revision paired with ot_gpu.js, which does
-- NOT clear the accumulators in-kernel)
-- ════════════════════════════════════════════════════════════════════

namespace KMeans

/-- `K = 512` centroids. -/
def K : ℕ := 512

/-- `K_ITERS = 6` k-means iterations. -/
def K_ITERS : ℕ := 6

/-- `OT_N = 1_500_000` of ot_gpu.js. -/
def OT_N : ℕ := 1500000

/-- `N = 2_000_000` of src/constants.js (substituted for `%%N%%` in
kmeans_update.wgsl). -/
def KM_N : ℕ := 2000000

/-- `SCALE = 1024.0` of src/constants.js (substituted for `%%SCALE%%` in
kmeans_update.wgsl, and hard-coded in the ot_gpu.js revision of
kmeans_divide.wgsl). -/
def SCALE : ℚ := 1024

/-- Integer value of SCALE, for overflow bounds. -/
def SCALE_INT : ℤ := 1024

/-- The largest signed 32-bit integer. -/
def I32_MAX : ℤ := 2147483647

/-- The fixed-point accumulators `sum_x`, `sum_y`, `counts`. -/
structure KMAcc where
  sumx : ℕ → ℤ
  sumy : ℕ → ℤ
  counts : ℕ → ℕ

/-- The GPU state touched by one k-means iteration. -/
structure KMState where
  acc : KMAcc
  centroids : ℕ → ℚ × ℚ
  labels : ℕ → ℕ

/-- All-zero accumulators. -/
def zeroAcc : KMAcc := ⟨fun _ => 0, fun _ => 0, fun _ => 0⟩

/-- The host-side clearing of the accumulators performed by
`device.queue.writeBuffer(sumXBuf/sumYBuf/countsBuf, 0, ZEROS)` at the
top of every iteration of `runKMeans`, before that iteration's
submission. -/
def hostClear (s : KMState) : KMState := { s with acc := zeroAcc }

/-- The kmeans_assign.wgsl kernel, one invocation: loop over all K
centroids tracking `(best_d, best_k)` from the sentinel
`best_d = 1e38, best_k = 0`, taking a new centroid on a strict
distance-squared improvement; returns the label written for this
point. -/
def kmeans_assign (cents : ℕ → ℚ × ℚ) (p : ℚ × ℚ) : ℕ :=
  (((List.range K).foldl (fun best k =>
      let dx := p.1 - (cents k).1
      let dy := p.2 - (cents k).2
      let d2 := dx * dx + dy * dy
      if d2 < best.1 then (d2, k) else best)
    ((10 : ℚ) ^ 38, 0)) : ℚ × ℕ).2

/-- The Assign pass of kmeans_assign.wgsl: one thread per point
`i < N`, writes only `labels[i]`; threads with `i ≥ N` early-return. -/
def assignPass (pos : ℕ → ℚ × ℚ) (s : KMState) : KMState :=
  { s with labels := fun i =>
      if i < OT_N then kmeans_assign s.centroids (pos i) else s.labels i }

/-- The three `atomicAdd`s of one kmeans_update.wgsl invocation:
`atomicAdd(&sum_x[k], i32(pos.x * SCALE))`, same for y, and
`atomicAdd(&counts[k], 1u)`. -/
def addPoint (a : KMAcc) (k : ℕ) (p : ℚ × ℚ) : KMAcc :=
  { sumx := fun j => if j = k then a.sumx j + i32cast (p.1 * SCALE) else a.sumx j,
    sumy := fun j => if j = k then a.sumy j + i32cast (p.2 * SCALE) else a.sumy j,
    counts := fun j => if j = k then a.counts j + 1 else a.counts j }

/-- The Accumulate (update) pass of kmeans_update.wgsl: every point
`i < n` adds its fixed-point position into its label's accumulator. -/
def updatePass (pos : ℕ → ℚ × ℚ) (n : ℕ) (s : KMState) : KMState :=
  { s with acc := ((List.range n).foldl
      (fun a i => addPoint a (s.labels i) (pos i)) s.acc) }

/-- The Divide pass of kmeans_divide.wgsl (ot_gpu.js revision): for each
centroid `k < K` with a positive count, `centroid = (sum / SCALE) /
count`; empty clusters keep their previous centroid.  The kernel does
not write the accumulators. -/
def dividePass (s : KMState) : KMState :=
  { s with centroids := fun k =>
      if k < K then
        if s.acc.counts k > 0 then
          ((s.acc.sumx k : ℚ) / (SCALE * (s.acc.counts k : ℚ)),
           (s.acc.sumy k : ℚ) / (SCALE * (s.acc.counts k : ℚ)))
        else s.centroids k
      else s.centroids k }

/-- One iteration of the `runKMeans` loop of ot_gpu.js: the host clears
the accumulators through the queue (writeBuffer), then submits one
encoder with the assign → update → divide passes. -/
def kmIter (pos : ℕ → ℚ × ℚ) (n : ℕ) (s : KMState) : KMState :=
  dividePass (updatePass pos n (assignPass pos (hostClear s)))

/-- Centroid seeding of `runKMeans`: K evenly-spaced positions from the
input array (`step = floor(OT_N / K)`). -/
def seedCentroids (pos : ℕ → ℚ × ℚ) : ℕ → ℚ × ℚ :=
  fun k => pos (k * (OT_N / K))

/-- `runKMeans`: seed centroids, run `K_ITERS` iterations, then a final
assign pass so the labels match the converged centroids. -/
def runKMeans (pos : ℕ → ℚ × ℚ) (s : KMState) : KMState :=
  assignPass pos
    ((kmIter pos OT_N)^[K_ITERS] { s with centroids := seedCentroids pos })

end KMeans

-- ════════════════════════════════════════════════════════════════════
-- Intra-cluster round-robin pairing (ot_gpu.js `assignTargetsGpu`)
-- ════════════════════════════════════════════════════════════════════

namespace Pairing

/-- The body of the pairing loop for one source atom with source-cluster
label `lbl`: look up the matched target cluster, take the next
round-robin member of its pool (or the centroid itself when the pool is
empty).  The raw pool access `pool[cursor % pool.length]` is modelled
with `List.get?` so that an out-of-bounds access would surface as
`none`. -/
def assignStep (pools : ℕ → List ℕ) (centroidMap : ℕ → ℕ)
    (tgtPos : ℕ → ℚ × ℚ) (centroids : ℕ → ℚ × ℚ)
    (cursors : ℕ → ℕ) (lbl : ℕ) : Option ((ℚ × ℚ) × (ℕ → ℕ)) :=
  let t := centroidMap lbl
  let pool := pools t
  if pool.length = 0 then
    -- Empty cluster fallback: use centroid position directly
    some (centroids t, cursors)
  else
    match pool.get? (cursors t % pool.length) with
    | some j => some (tgtPos j, fun k => if k = t then cursors t + 1 else cursors k)
    | none => none

/-- The full pairing loop over the per-atom source labels, threading the
round-robin cursors. -/
def assignAll (pools : ℕ → List ℕ) (centroidMap : ℕ → ℕ)
    (tgtPos : ℕ → ℚ × ℚ) (centroids : ℕ → ℚ × ℚ) :
    List ℕ → (ℕ → ℕ) → Option (List (ℚ × ℚ))
  | [], _ => some []
  | lbl :: rest, cursors =>
    match assignStep pools centroidMap tgtPos centroids cursors lbl with
    | none => none
    | some (p, cursors2) =>
      match assignAll pools centroidMap tgtPos centroids rest cursors2 with
      | none => none
      | some out => some (p :: out)

end Pairing

-- ════════════════════════════════════════════════════════════════════
-- Atom seeding (src/gpu/buffers.js `seedAtoms`, main.js mirrors)
-- ════════════════════════════════════════════════════════════════════

namespace Seeding

/-- `seedAtoms` (src/gpu/buffers.js): atom `i` of the seed array —
uniform random scatter over the interior box, zero velocity.  `r` is the
stream of `Math.random()` values (two per atom). -/
def seedAtoms (r : ℕ → ℚ) (i : ℕ) : Physics.Atom :=
  { pos := ((r (2 * i) * 2 - 1) * (85/100),
            (r (2 * i + 1) * 2 - 1) * (85/100)),
    vel := (0, 0) }

/-- The same seed data is written into both ping-pong atom buffers
(`writeBuffer(atomBufs[0], …)` and `writeBuffer(atomBufs[1], …)`). -/
def atomBuf (_slot : ℕ) (r : ℕ → ℚ) : ℕ → Physics.Atom := seedAtoms r

/-- main.js: `cpuSource[i*2] = seedData[i*4]`, `… + 1] = seedData[i*4+1]`. -/
def cpuSourceInit (r : ℕ → ℚ) : ℕ → ℚ × ℚ := fun i => (seedAtoms r i).pos

/-- main.js: `cpuTarget[i*2] = seedData[i*4]`, `… + 1] = seedData[i*4+1]`. -/
def cpuTargetInit (r : ℕ → ℚ) : ℕ → ℚ × ℚ := fun i => (seedAtoms r i).pos

end Seeding

-- ════════════════════════════════════════════════════════════════════
-- Orchestrator (main.js `goToShape`, `goToPositions`)
-- ════════════════════════════════════════════════════════════════════

namespace Orchestrator

/-- The externally visible side effects a `goToShape` call can perform. -/
inductive Action where
  | runNCA
  | sample
  | assignTargets
  | writeSourceBuf
  | writeTargetBuf
  | setStatus
  deriving DecidableEq, Repr

/-- The orchestrator state owned by main.js that `goToShape` touches:
the reentrancy flag, the CPU source/target mirrors, the morph state
(`morph.t`, `morph.hold`, `simData[2]` = has_targets, `simData[3]` =
morph parameter) and the HUD status label. -/
structure OrchState where
  transitioning : Bool
  cpuSource : ℕ → ℚ × ℚ
  cpuTarget : ℕ → ℚ × ℚ
  morphT : ℚ
  holdT : ℚ
  hasTargets : ℚ
  morphParam : ℚ
  status : String

/-- `goToPositions(newTargets, label)`: copy current target into source,
install the new targets, write both buffers, reset the morph state and
update the HUD. -/
def goToPositions (newTargets : ℕ → ℚ × ℚ) (label : String)
    (s : OrchState) : OrchState :=
  { s with cpuSource := s.cpuTarget, cpuTarget := newTargets,
           morphT := 0, holdT := 0, hasTargets := 1, morphParam := 0,
           status := label }

/-- `goToShape(name)`: the transition procedure.  The NCA run and GPU
k-means assignment are passed as function parameters (`runNcaF`,
`assignF`), with `goalOf` standing for `getShape` and `r` feeding the
sampler's random source; the returned action list records which
pipeline stages executed.  A call made while `transitioning` is set
returns `null` immediately. -/
def goToShape (goalOf : String → List ℚ) (runNcaF : List ℚ → List ℚ)
    (r : ℕ → ℚ) (assignF : (ℕ → ℚ × ℚ) → List (ℚ × ℚ) → (ℕ → ℚ × ℚ))
    (name : String) (s : OrchState) :
    Option String × OrchState × List Action :=
  if s.transitioning then (none, s, [])
  else
    let s1 : OrchState := { s with transitioning := true }
    let canonical := Registry.resolveShape name
    let organicDensity := runNcaF (goalOf canonical)
    let rawTgt := Sampler.sampleFromDensity organicDensity r
    let assigned := assignF s1.cpuSource rawTgt
    let s2 := goToPositions assigned canonical s1
    (some canonical, { s2 with transitioning := false },
     [Action.runNCA, Action.sample, Action.assignTargets,
      Action.writeSourceBuf, Action.writeTargetBuf, Action.setStatus])

end Orchestrator

-- ════════════════════════════════════════════════════════════════════
-- Helper lemmas
-- ════════════════════════════════════════════════════════════════════

theorem clampQ_lower {x lo hi : ℚ} (h : lo ≤ hi) : lo ≤ clampQ x lo hi :=
  le_min (le_max_right x lo) h

theorem clampQ_upper (x lo hi : ℚ) : clampQ x lo hi ≤ hi := min_le_right _ _

/-- A convex mix of two values of `[-1, 1]` with weight in `[0, 1]`
stays in `[-1, 1]`. -/
theorem mixQ_mem {x y a : ℚ} (hx : -1 ≤ x ∧ x ≤ 1) (hy : -1 ≤ y ∧ y ≤ 1)
    (ha : 0 ≤ a ∧ a ≤ 1) : -1 ≤ mixQ x y a ∧ mixQ x y a ≤ 1 := by
  obtain ⟨hx0, hx1⟩ := hx
  obtain ⟨hy0, hy1⟩ := hy
  obtain ⟨ha0, ha1⟩ := ha
  unfold mixQ
  constructor <;> nlinarith

/-- The smoothstep polynomial `t² (3 - 2 t)` maps `[0, 1]` into `[0, 1]`. -/
theorem smoothstep_mem {t : ℚ} (h0 : 0 ≤ t) (h1 : t ≤ 1) :
    0 ≤ t * t * (3 - 2 * t) ∧ t * t * (3 - 2 * t) ≤ 1 := by
  have key : 0 ≤ (1 - t) ^ 2 * (1 + 2 * t) :=
    mul_nonneg (sq_nonneg _) (by linarith)
  constructor <;> nlinarith

/-- The binary-search loop keeps its result inside `[lo, hi]`. -/
theorem bsearch_range (cdf : List ℚ) (r : ℚ) :
    ∀ d lo hi, hi - lo ≤ d → lo ≤ hi →
      lo ≤ Sampler.bsearch cdf r lo hi ∧ Sampler.bsearch cdf r lo hi ≤ hi := by
  intro d
  induction d with
  | zero =>
    intro lo hi hd hle
    have hnlt : ¬ lo < hi := by omega
    rw [Sampler.bsearch, dif_neg hnlt]
    exact ⟨le_refl _, hle⟩
  | succ d ih =>
    intro lo hi hd hle
    rw [Sampler.bsearch]
    by_cases hlt : lo < hi
    · rw [dif_pos hlt]
      simp only
      by_cases hc : cdf.getD ((lo + hi) / 2) 0 < r
      · rw [if_pos hc]
        have h2 := ih ((lo + hi) / 2 + 1) hi (by omega) (by omega)
        exact ⟨le_trans (by omega) h2.1, h2.2⟩
      · rw [if_neg hc]
        have h2 := ih lo ((lo + hi) / 2) (by omega) (by omega)
        exact ⟨h2.1, le_trans h2.2 (by omega)⟩
    · rw [dif_neg hlt]
      exact ⟨le_refl _, hle⟩

/-- Every sample produced by `sampleFromDensity` lies in the NDC box,
provided the grid is no larger than `GRID_SIZE²` and the random source
delivers values in `[0, 1)`. -/
theorem sampleFromDensity_mem_box (grid : List ℚ) (r : ℕ → ℚ)
    (hlen : grid.length ≤ Sampler.GRID_SIZE * Sampler.GRID_SIZE)
    (hr : ∀ n, 0 ≤ r n ∧ r n < 1) :
    ∀ p ∈ Sampler.sampleFromDensity grid r, inBox p := by
  intro p hp
  unfold Sampler.sampleFromDensity at hp
  by_cases h0 : grid.sum = 0
  · rw [if_pos h0] at hp
    obtain ⟨i, _, rfl⟩ := List.mem_map.1 hp
    obtain ⟨ha0, ha1⟩ := hr (2 * i)
    obtain ⟨hb0, hb1⟩ := hr (2 * i + 1)
    refine ⟨by nlinarith, by nlinarith, by nlinarith, by nlinarith⟩
  · rw [if_neg h0] at hp
    obtain ⟨i, _, rfl⟩ := List.mem_map.1 hp
    simp only
    set cdf := (grid.scanl (fun cumsum g => cumsum + g / grid.sum) 0).tail with hcdf
    have hclen : cdf.length = grid.length := by
      rw [hcdf, List.length_tail, List.length_scanl]
      omega
    have hgpos : 1 ≤ grid.length := by
      rcases Nat.eq_zero_or_pos grid.length with h | h
      · exact absurd (by simp [List.length_eq_zero.1 h]) h0
      · exact h
    set lo := Sampler.bsearch cdf (r (3 * i)) 0 (cdf.length - 1) with hlo
    have hrange := bsearch_range cdf (r (3 * i)) (cdf.length - 1) 0
      (cdf.length - 1) (by omega) (by omega)
    have hlohi : lo ≤ Sampler.GRID_SIZE * Sampler.GRID_SIZE - 1 := by
      have := hrange.2
      rw [← hlo] at this
      omega
    have hcol : lo % Sampler.GRID_SIZE ≤ Sampler.GRID_SIZE - 1 :=
      Nat.le_sub_one_of_lt (Nat.mod_lt _ (by norm_num [Sampler.GRID_SIZE]))
    have hrow : lo / Sampler.GRID_SIZE ≤ Sampler.GRID_SIZE - 1 := by
      have h1 : lo ≤ Sampler.GRID_SIZE * Sampler.GRID_SIZE - 1 := hlohi
      have := Nat.div_le_div_right (c := Sampler.GRID_SIZE) h1
      simpa [Sampler.GRID_SIZE] using this
    obtain ⟨hj1, hj2⟩ := hr (3 * i + 1)
    obtain ⟨hk1, hk2⟩ := hr (3 * i + 2)
    have hcolQ : ((lo % Sampler.GRID_SIZE : ℕ) : ℚ) ≤ 127 := by
      exact_mod_cast (by simpa [Sampler.GRID_SIZE] using hcol)
    have hrowQ : ((lo / Sampler.GRID_SIZE : ℕ) : ℚ) ≤ 127 := by
      exact_mod_cast (by simpa [Sampler.GRID_SIZE] using hrow)
    have hcol0 : (0 : ℚ) ≤ ((lo % Sampler.GRID_SIZE : ℕ) : ℚ) := Nat.cast_nonneg _
    have hrow0 : (0 : ℚ) ≤ ((lo / Sampler.GRID_SIZE : ℕ) : ℚ) := Nat.cast_nonneg _
    simp only [Sampler.GRID_SIZE] at hcolQ hrowQ hcol0 hrow0 ⊢
    refine ⟨by nlinarith, by nlinarith, by nlinarith, by nlinarith⟩

/-- The degenerate-grid fallback delivers samples in the closed interior
box `[-0.85, 0.85]²`. -/
theorem sampleFromDensity_zero_mem (grid : List ℚ) (r : ℕ → ℚ)
    (h0 : grid.sum = 0) (hr : ∀ n, 0 ≤ r n ∧ r n < 1) :
    ∀ p ∈ Sampler.sampleFromDensity grid r, inBox085 p := by
  intro p hp
  unfold Sampler.sampleFromDensity at hp
  rw [if_pos h0] at hp
  obtain ⟨i, _, rfl⟩ := List.mem_map.1 hp
  obtain ⟨ha0, ha1⟩ := hr (2 * i)
  obtain ⟨hb0, hb1⟩ := hr (2 * i + 1)
  refine ⟨by nlinarith, by nlinarith, by nlinarith, by nlinarith⟩

/-- The round-robin pairing loop always succeeds (the modulo access is
always in bounds) and yields one target per source atom. -/
theorem assignAll_isSome (pools : ℕ → List ℕ) (cmap : ℕ → ℕ)
    (tpos : ℕ → ℚ × ℚ) (cents : ℕ → ℚ × ℚ) :
    ∀ (labels : List ℕ) (cursors : ℕ → ℕ),
      ∃ out, Pairing.assignAll pools cmap tpos cents labels cursors = some out ∧
        out.length = labels.length := by
  intro labels
  induction labels with
  | nil => exact fun cursors => ⟨[], rfl, rfl⟩
  | cons lbl rest ih =>
    intro cursors
    have hstep : ∃ pc, Pairing.assignStep pools cmap tpos cents cursors lbl = some pc := by
      by_cases h : (pools (cmap lbl)).length = 0
      · exact ⟨_, by simp only [Pairing.assignStep]; rw [if_pos h]⟩
      · have hlt : cursors (cmap lbl) % (pools (cmap lbl)).length <
            (pools (cmap lbl)).length := Nat.mod_lt _ (Nat.pos_of_ne_zero h)
        exact ⟨_, by
          simp only [Pairing.assignStep]
          rw [if_neg h, List.get?_eq_get hlt]⟩
    obtain ⟨⟨q, cursors2⟩, hstep⟩ := hstep
    obtain ⟨out, hout, hlen⟩ := ih cursors2
    refine ⟨q :: out, ?_, by simp [hlen]⟩
    simp [Pairing.assignAll, hstep, hout]

/-- The fixed-point conversion of a coordinate in `[-1, 1]` is bounded
by `SCALE` in absolute value. -/
theorem i32cast_scale_bound {x : ℚ} (h1 : -1 ≤ x) (h2 : x ≤ 1) :
    |i32cast (x * KMeans.SCALE)| ≤ KMeans.SCALE_INT := by
  unfold i32cast KMeans.SCALE_INT
  have hup : x * KMeans.SCALE ≤ 1024 := by
    unfold KMeans.SCALE; nlinarith
  have hdown : -1024 ≤ x * KMeans.SCALE := by
    unfold KMeans.SCALE; nlinarith
  by_cases h : 0 ≤ x * KMeans.SCALE
  · rw [if_pos h]
    rw [abs_of_nonneg (Int.floor_nonneg.2 h)]
    have := Int.floor_le_floor (α := ℚ) hup
    calc ⌊x * KMeans.SCALE⌋ ≤ ⌊(1024 : ℚ)⌋ := this
      _ = 1024 := by norm_num
  · rw [if_neg h]
    push_neg at h
    have hpos : 0 ≤ -(x * KMeans.SCALE) := by linarith
    rw [abs_neg, abs_of_nonneg (Int.floor_nonneg.2 hpos)]
    have := Int.floor_le_floor (α := ℚ) (show -(x * KMeans.SCALE) ≤ 1024 by linarith)
    calc ⌊-(x * KMeans.SCALE)⌋ ≤ ⌊(1024 : ℚ)⌋ := this
      _ = 1024 := by norm_num

/-- Bound on the accumulator values produced by folding `addPoint` over
`n` points with coordinates in the NDC box. -/
theorem acc_fold_bound (pos : ℕ → ℚ × ℚ) (labels : ℕ → ℕ)
    (hpos : ∀ i, inBox (pos i)) :
    ∀ n k,
      |(((List.range n).foldl (fun a i => KMeans.addPoint a (labels i) (pos i))
          KMeans.zeroAcc)).sumx k| ≤ n * KMeans.SCALE_INT ∧
      |(((List.range n).foldl (fun a i => KMeans.addPoint a (labels i) (pos i))
          KMeans.zeroAcc)).sumy k| ≤ n * KMeans.SCALE_INT := by
  intro n
  induction n with
  | zero => intro k; simp [KMeans.zeroAcc]
  | succ m ih =>
    intro k
    rw [List.range_succ, List.foldl_append, List.foldl_cons, List.foldl_nil]
    obtain ⟨ihx, ihy⟩ := ih k
    obtain ⟨hp1, hp2, hp3, hp4⟩ := hpos m
    have hbx := i32cast_scale_bound hp1 hp2
    have hby := i32cast_scale_bound hp3 hp4
    constructor
    · simp only [KMeans.addPoint]
      by_cases hk : k = labels m
      · rw [if_pos hk]
        calc |_ + i32cast ((pos m).1 * KMeans.SCALE)| ≤ _ + |i32cast ((pos m).1 * KMeans.SCALE)| := abs_add _ _
          _ ≤ m * KMeans.SCALE_INT + KMeans.SCALE_INT := by
              exact add_le_add ihx hbx
          _ = (m + 1) * KMeans.SCALE_INT := by ring
      · rw [if_neg hk]
        calc |_| ≤ (m : ℤ) * KMeans.SCALE_INT := ihx
          _ ≤ (m + 1) * KMeans.SCALE_INT := by
              have : (0 : ℤ) ≤ KMeans.SCALE_INT := by norm_num [KMeans.SCALE_INT]
              nlinarith
    · simp only [KMeans.addPoint]
      by_cases hk : k = labels m
      · rw [if_pos hk]
        calc |_ + i32cast ((pos m).2 * KMeans.SCALE)| ≤ _ + |i32cast ((pos m).2 * KMeans.SCALE)| := abs_add _ _
          _ ≤ m * KMeans.SCALE_INT + KMeans.SCALE_INT := by
              exact add_le_add ihy hby
          _ = (m + 1) * KMeans.SCALE_INT := by ring
      · rw [if_neg hk]
        calc |_| ≤ (m : ℤ) * KMeans.SCALE_INT := ihy
          _ ≤ (m + 1) * KMeans.SCALE_INT := by
              have : (0 : ℤ) ≤ KMeans.SCALE_INT := by norm_num [KMeans.SCALE_INT]
              nlinarith

/-- Per-cluster bound: folding `addPoint` over in-box points keeps each
accumulator bounded by `SCALE` times its own count. -/
theorem acc_fold_percluster_bound (pos : ℕ → ℚ × ℚ) (labels : ℕ → ℕ)
    (hpos : ∀ i, inBox (pos i)) :
    ∀ n k,
      |(((List.range n).foldl (fun a i => KMeans.addPoint a (labels i) (pos i))
          KMeans.zeroAcc)).sumx k| ≤
        KMeans.SCALE_INT *
          ((((List.range n).foldl (fun a i => KMeans.addPoint a (labels i) (pos i))
            KMeans.zeroAcc)).counts k : ℤ) ∧
      |(((List.range n).foldl (fun a i => KMeans.addPoint a (labels i) (pos i))
          KMeans.zeroAcc)).sumy k| ≤
        KMeans.SCALE_INT *
          ((((List.range n).foldl (fun a i => KMeans.addPoint a (labels i) (pos i))
            KMeans.zeroAcc)).counts k : ℤ) := by
  intro n
  induction n with
  | zero => intro k; simp [KMeans.zeroAcc]
  | succ m ih =>
    intro k
    rw [List.range_succ, List.foldl_append, List.foldl_cons, List.foldl_nil]
    set A := (List.range m).foldl (fun a i => KMeans.addPoint a (labels i) (pos i))
      KMeans.zeroAcc with hA
    obtain ⟨ihx, ihy⟩ := ih k
    obtain ⟨hp1, hp2, hp3, hp4⟩ := hpos m
    have hbx := i32cast_scale_bound hp1 hp2
    have hby := i32cast_scale_bound hp3 hp4
    simp only [KMeans.addPoint]
    by_cases hk : k = labels m
    · rw [if_pos hk, if_pos hk, if_pos hk]
      constructor
      · calc |A.sumx k + i32cast ((pos m).1 * KMeans.SCALE)|
            ≤ |A.sumx k| + |i32cast ((pos m).1 * KMeans.SCALE)| := abs_add _ _
          _ ≤ KMeans.SCALE_INT * (A.counts k : ℤ) + KMeans.SCALE_INT :=
              add_le_add ihx hbx
          _ = KMeans.SCALE_INT * ((A.counts k + 1 : ℕ) : ℤ) := by push_cast; ring
      · calc |A.sumy k + i32cast ((pos m).2 * KMeans.SCALE)|
            ≤ |A.sumy k| + |i32cast ((pos m).2 * KMeans.SCALE)| := abs_add _ _
          _ ≤ KMeans.SCALE_INT * (A.counts k : ℤ) + KMeans.SCALE_INT :=
              add_le_add ihy hby
          _ = KMeans.SCALE_INT * ((A.counts k + 1 : ℕ) : ℤ) := by push_cast; ring
    · rw [if_neg hk, if_neg hk, if_neg hk]
      exact ⟨ihx, ihy⟩

/-- A summed fixed-point coordinate bounded by `SCALE` times its count
divides back (as in kmeans_divide) into `[-1, 1]`. -/
theorem int_ratio_inBox {sx : ℤ} {c : ℕ} (hc : 0 < c)
    (hx : |sx| ≤ KMeans.SCALE_INT * (c : ℤ)) :
    -1 ≤ (sx : ℚ) / (KMeans.SCALE * (c : ℚ)) ∧
      (sx : ℚ) / (KMeans.SCALE * (c : ℚ)) ≤ 1 := by
  have hcQ : (0 : ℚ) < (c : ℚ) := by exact_mod_cast hc
  have hS : (0 : ℚ) < KMeans.SCALE * (c : ℚ) :=
    mul_pos (by norm_num [KMeans.SCALE]) hcQ
  have h2 : |(sx : ℚ)| ≤ ((KMeans.SCALE_INT : ℤ) : ℚ) * (c : ℚ) := by
    exact_mod_cast hx
  have heq : ((KMeans.SCALE_INT : ℤ) : ℚ) = KMeans.SCALE := by
    norm_num [KMeans.SCALE_INT, KMeans.SCALE]
  rw [heq] at h2
  obtain ⟨hlo, hhi⟩ := abs_le.1 h2
  constructor
  · rw [le_div_iff₀ hS]; linarith
  · rw [div_le_one hS]; linarith

/-- The divide pass keeps every centroid in the NDC box: a non-empty
cluster's new centroid is a per-cluster average of in-box fixed-point
contributions, and an empty cluster keeps its previous (in-box)
centroid. -/
theorem dividePass_centroids_inBox (s : KMeans.KMState)
    (hacc : ∀ k, |s.acc.sumx k| ≤ KMeans.SCALE_INT * (s.acc.counts k : ℤ) ∧
                 |s.acc.sumy k| ≤ KMeans.SCALE_INT * (s.acc.counts k : ℤ))
    (hcent : ∀ k, inBox (s.centroids k)) :
    ∀ k, inBox ((KMeans.dividePass s).centroids k) := by
  intro k
  unfold KMeans.dividePass
  dsimp only
  by_cases hk : k < KMeans.K
  · rw [if_pos hk]
    by_cases hc : s.acc.counts k > 0
    · rw [if_pos hc]
      obtain ⟨hx, hy⟩ := hacc k
      have hbx := int_ratio_inBox hc hx
      have hby := int_ratio_inBox hc hy
      exact ⟨hbx.1, hbx.2, hby.1, hby.2⟩
    · rw [if_neg hc]
      exact hcent k
  · rw [if_neg hk]
    exact hcent k

/-- One k-means iteration keeps every centroid in the NDC box when the
point cloud is in the box. -/
theorem kmIter_centroids_inBox (pos : ℕ → ℚ × ℚ) (n : ℕ)
    (s : KMeans.KMState) (hpos : ∀ i, inBox (pos i))
    (hcent : ∀ k, inBox (s.centroids k)) :
    ∀ k, inBox ((KMeans.kmIter pos n s).centroids k) :=
  dividePass_centroids_inBox _
    (fun k => acc_fold_percluster_bound pos
      ((KMeans.assignPass pos (KMeans.hostClear s)).labels) hpos n k)
    hcent

/-- Iterated k-means keeps every centroid in the NDC box. -/
theorem kmIter_iterate_centroids_inBox (pos : ℕ → ℚ × ℚ) (n : ℕ)
    (hpos : ∀ i, inBox (pos i)) :
    ∀ (m : ℕ) (s : KMeans.KMState), (∀ k, inBox (s.centroids k)) →
      ∀ k, inBox (((KMeans.kmIter pos n)^[m] s).centroids k) := by
  intro m
  induction m with
  | zero => exact fun s h k => h k
  | succ j ih =>
    intro s h k
    rw [Function.iterate_succ_apply]
    exact ih _ (kmIter_centroids_inBox pos n s hpos h) k

/-- `runKMeans` on an in-box point cloud delivers only in-box
centroids: the seeds are input points, each divide keeps the box, and
the final assign pass does not touch the centroids. -/
theorem runKMeans_centroids_inBox (pos : ℕ → ℚ × ℚ) (s : KMeans.KMState)
    (hpos : ∀ i, inBox (pos i)) :
    ∀ k, inBox ((KMeans.runKMeans pos s).centroids k) := by
  intro k
  unfold KMeans.runKMeans KMeans.assignPass
  dsimp only
  refine kmIter_iterate_centroids_inBox pos KMeans.OT_N hpos KMeans.K_ITERS
    _ (fun k2 => ?_) k
  show inBox (KMeans.seedCentroids pos k2)
  unfold KMeans.seedCentroids
  exact hpos _

/-- Reading the sampler's output as a target-position array (with the
zero default) only ever yields in-box positions. -/
theorem sampler_getD_inBox (grid : List ℚ) (r : ℕ → ℚ)
    (hlen : grid.length ≤ Sampler.GRID_SIZE * Sampler.GRID_SIZE)
    (hr : ∀ n, 0 ≤ r n ∧ r n < 1) :
    ∀ j, inBox ((Sampler.sampleFromDensity grid r).getD j (0, 0)) := by
  intro j
  by_cases hj : j < (Sampler.sampleFromDensity grid r).length
  · rw [List.getD_eq_getElem _ _ hj]
    exact sampleFromDensity_mem_box grid r hlen hr _ (List.getElem_mem hj)
  · rw [List.getD_eq_default _ _ (not_lt.1 hj)]
    norm_num [inBox]

/-- Every position the round-robin pairing outputs is either a member
of the target array or a centroid, so it is in the box whenever both
are. -/
theorem assignAll_mem_inBox (pools : ℕ → List ℕ) (cmap : ℕ → ℕ)
    (tpos cents : ℕ → ℚ × ℚ)
    (htpos : ∀ j, inBox (tpos j)) (hcents : ∀ k, inBox (cents k)) :
    ∀ (labels : List ℕ) (cursors : ℕ → ℕ) (out : List (ℚ × ℚ)),
      Pairing.assignAll pools cmap tpos cents labels cursors = some out →
      ∀ p ∈ out, inBox p := by
  intro labels
  induction labels with
  | nil =>
    intro cursors out h p hp
    rw [Pairing.assignAll, Option.some.injEq] at h
    subst h
    simp at hp
  | cons lbl rest ih =>
    intro cursors out h p hp
    rw [Pairing.assignAll] at h
    cases hstep : Pairing.assignStep pools cmap tpos cents cursors lbl with
    | none => rw [hstep] at h; simp at h
    | some pc =>
      obtain ⟨p0, cursors2⟩ := pc
      simp only [hstep] at h
      cases hrest : Pairing.assignAll pools cmap tpos cents rest cursors2 with
      | none => simp only [hrest] at h; exact Option.noConfusion h
      | some rec2 =>
        simp only [hrest, Option.some.injEq] at h
        subst h
        rcases List.mem_cons.1 hp with rfl | hp2
        · simp only [Pairing.assignStep] at hstep
          by_cases hlen2 : (pools (cmap lbl)).length = 0
          · rw [if_pos hlen2, Option.some.injEq] at hstep
            have : p = cents (cmap lbl) := congrArg Prod.fst hstep.symm
            rw [this]
            exact hcents _
          · rw [if_neg hlen2] at hstep
            cases hget : (pools (cmap lbl)).get?
                (cursors (cmap lbl) % (pools (cmap lbl)).length) with
            | none => rw [hget] at hstep; simp at hstep
            | some j =>
              rw [hget] at hstep
              simp only [Option.some.injEq] at hstep
              have : p = tpos j := congrArg Prod.fst hstep.symm
              rw [this]
              exact htpos j
        · exact ih cursors2 rec2 hrest p hp2

-- ════════════════════════════════════════════════════════════════════
-- Claim theorems
-- ════════════════════════════════════════════════════════════════════

/-- C1 (counterexample): the four inputs do NOT all resolve to one and
the same canonical name.  In the base registry, "DNA" resolves to
"circle" (no dna entry, no alias, no prefix hit) while "helix" is
aliased to "spiral"; in the extended registry, "DNA" resolves to the
canonical "dna" while "helix" falls through to the "circle" default. -/
theorem claim_resolve_shape_cex :
    Registry.resolveShape "DNA" = "circle" ∧
    Registry.resolveShape "helix" = "spiral" ∧
    ("circle" : String) ≠ "spiral" ∧
    Registry.resolveShapeExt "DNA" = "dna" ∧
    Registry.resolveShapeExt "helix" = "circle" ∧
    ("dna" : String) ≠ "circle" := by decide

/-- C1 (amended): "DNA", "dna" and " DNA " all resolve to one and the
same canonical name ("circle" in the base registry, "dna" in the
extended registry), while "helix" resolves to "spiral" (base, via the
alias map) respectively "circle" (extended, via the default fallback);
"gibberish" resolves to "circle" in both. -/
theorem claim_resolve_shape :
    Registry.resolveShape "DNA" = "circle" ∧
    Registry.resolveShape "dna" = "circle" ∧
    Registry.resolveShape " DNA " = "circle" ∧
    Registry.resolveShape "helix" = "spiral" ∧
    Registry.resolveShape "gibberish" = "circle" ∧
    Registry.resolveShapeExt "DNA" = "dna" ∧
    Registry.resolveShapeExt "dna" = "dna" ∧
    Registry.resolveShapeExt " DNA " = "dna" ∧
    Registry.resolveShapeExt "helix" = "circle" ∧
    Registry.resolveShapeExt "gibberish" = "circle" := by decide

/-- C2 (counterexample): at `has_targets = 0.5` the claim's morph-mode
premise `has_targets ≥ 0.5` holds, but the kernel tests
`has_targets > 0.5` and takes the wander branch: with zero state and
`dt = 0` it writes position `(0,0)`, not the morph mix `(1/2, 1/2)` of
`source = (1/2, 1/2)` and `target = (7/10, 7/10)` at `morph_t = 0`. -/
theorem claim_morph_kernel_cex :
    ((1:ℚ)/2 ≥ 1/2) ∧
    (Physics.cs_main (fun _ => 0) (fun _ => 0) (fun _ => ⟨(0, 0), (0, 0)⟩)
      ⟨0, 0, 1/2, 0⟩ (fun _ => (7/10, 7/10)) (fun _ => (1/2, 1/2)) 0).map
      Physics.Atom.pos = some ((0 : ℚ), (0 : ℚ)) ∧
    mixV ((1/2 : ℚ), (1/2 : ℚ)) (7/10, 7/10)
      (clampQ 0 0 1 * clampQ 0 0 1 * (3 - 2 * clampQ 0 0 1)) =
      ((1/2 : ℚ), (1/2 : ℚ)) ∧
    ((0 : ℚ), (0 : ℚ)) ≠ ((1/2 : ℚ), (1/2 : ℚ)) := by
  refine ⟨by norm_num, ?_, ?_, ?_⟩
  · norm_num [Physics.cs_main, Physics.PHYS_N, Physics.BOUND,
      Physics.MAX_VEL, clampQ]
  · norm_num [mixV, mixQ, clampQ, Prod.ext_iff]
  · intro h
    exact absurd (congrArg Prod.fst h) (by norm_num)

/-- C2 (amended): for every atom index `i < N` and every frame with
`has_targets > 0.5` (the kernel's actual test), the physics kernel
writes `position = mix(source[i], target[i], s)` and
`velocity = (target[i] − source[i]) · (1 − s)` with `s = t²(3−2t)`,
`t = clamp(morph_t, 0, 1)`; in particular at `morph_t = 0` the written
position equals `source[i]` and at `morph_t = 1` it equals
`target[i]`. -/
theorem claim_morph_kernel (sinF : ℚ → ℚ) (lengthF : ℚ × ℚ → ℚ)
    (src_atoms : ℕ → Physics.Atom) (params : Physics.SimParams)
    (target_buf source_buf : ℕ → ℚ × ℚ) (idx : ℕ)
    (hidx : idx < Physics.PHYS_N) (hht : params.has_targets > 1/2) :
    Physics.cs_main sinF lengthF src_atoms params target_buf source_buf idx =
      some { pos := mixV (source_buf idx) (target_buf idx)
               (clampQ params.morph_t 0 1 * clampQ params.morph_t 0 1 *
                (3 - 2 * clampQ params.morph_t 0 1)),
             vel := (((target_buf idx).1 - (source_buf idx).1) *
                       (1 - clampQ params.morph_t 0 1 * clampQ params.morph_t 0 1 *
                          (3 - 2 * clampQ params.morph_t 0 1)),
                     ((target_buf idx).2 - (source_buf idx).2) *
                       (1 - clampQ params.morph_t 0 1 * clampQ params.morph_t 0 1 *
                          (3 - 2 * clampQ params.morph_t 0 1))) } ∧
    (params.morph_t = 0 →
      (Physics.cs_main sinF lengthF src_atoms params target_buf source_buf idx).map
        Physics.Atom.pos = some (source_buf idx)) ∧
    (params.morph_t = 1 →
      (Physics.cs_main sinF lengthF src_atoms params target_buf source_buf idx).map
        Physics.Atom.pos = some (target_buf idx)) := by
  have hn : ¬ idx ≥ Physics.PHYS_N := not_le.mpr hidx
  have hmain : Physics.cs_main sinF lengthF src_atoms params target_buf source_buf idx =
      some { pos := mixV (source_buf idx) (target_buf idx)
               (clampQ params.morph_t 0 1 * clampQ params.morph_t 0 1 *
                (3 - 2 * clampQ params.morph_t 0 1)),
             vel := (((target_buf idx).1 - (source_buf idx).1) *
                       (1 - clampQ params.morph_t 0 1 * clampQ params.morph_t 0 1 *
                          (3 - 2 * clampQ params.morph_t 0 1)),
                     ((target_buf idx).2 - (source_buf idx).2) *
                       (1 - clampQ params.morph_t 0 1 * clampQ params.morph_t 0 1 *
                          (3 - 2 * clampQ params.morph_t 0 1))) } := by
    simp only [Physics.cs_main, if_neg hn, if_pos hht]
  refine ⟨hmain, ?_, ?_⟩
  · intro h0
    rw [hmain]
    have hc : clampQ (0:ℚ) 0 1 = 0 := by norm_num [clampQ]
    simp only [h0, hc, Option.map_some']
    norm_num [mixV, mixQ, Prod.ext_iff]
  · intro h1
    rw [hmain]
    have hc : clampQ (1:ℚ) 0 1 = 1 := by norm_num [clampQ]
    simp only [h1, hc, Option.map_some']
    norm_num [mixV, mixQ, Prod.ext_iff]

/-- C2 (witness): the amended morph-kernel theorem at a concrete
input with `has_targets = 1`, `morph_t = 0`, atom index 5. -/
theorem claim_morph_kernel_witness :
    Physics.cs_main (fun _ => 0) (fun _ => 0) (fun _ => ⟨(0, 0), (0, 0)⟩)
      ⟨1/60, 0, 1, 0⟩ (fun _ => (1, 0)) (fun _ => (0, 1)) 5 =
      some { pos := mixV ((0 : ℚ), (1 : ℚ)) ((1 : ℚ), (0 : ℚ))
               (clampQ 0 0 1 * clampQ 0 0 1 * (3 - 2 * clampQ 0 0 1)),
             vel := (((1 : ℚ) - 0) *
                       (1 - clampQ 0 0 1 * clampQ 0 0 1 * (3 - 2 * clampQ 0 0 1)),
                     ((0 : ℚ) - 1) *
                       (1 - clampQ 0 0 1 * clampQ 0 0 1 * (3 - 2 * clampQ 0 0 1))) } :=
  (claim_morph_kernel (fun _ => 0) (fun _ => 0) (fun _ => ⟨(0, 0), (0, 0)⟩)
    ⟨1/60, 0, 1, 0⟩ (fun _ => (1, 0)) (fun _ => (0, 1)) 5
    (by norm_num [Physics.PHYS_N]) (by norm_num)).1

/-- C3: after every physics step the written position lies in
`[-1, +1]²`: the wander branch clamps explicitly, and the morph branch
is a convex mix of the source and target buffers, which the sampler and
the OT engine always deliver inside `[-1, +1]²`.  Conjuncts: (1) the
kernel's written position is in the box whenever the source/target
buffers are; (2) every sampler output is in the box; (3) `runKMeans` on
an in-box cloud delivers only in-box centroids (covering the
empty-cluster centroid fallback); (4) every position the round-robin
pairing outputs is in the box when its targets and centroids are;
(5) end-to-end, the OT assignment computed from sampler targets and the
k-means centroids of those targets delivers only in-box positions. -/
theorem claim_positions_in_box :
    (∀ (sinF : ℚ → ℚ) (lengthF : ℚ × ℚ → ℚ) (src_atoms : ℕ → Physics.Atom)
       (params : Physics.SimParams) (target_buf source_buf : ℕ → ℚ × ℚ)
       (idx : ℕ) (a : Physics.Atom),
       (∀ j, inBox (source_buf j)) → (∀ j, inBox (target_buf j)) →
       Physics.cs_main sinF lengthF src_atoms params target_buf source_buf idx =
         some a →
       inBox a.pos) ∧
    (∀ (grid : List ℚ) (r : ℕ → ℚ),
       grid.length ≤ Sampler.GRID_SIZE * Sampler.GRID_SIZE →
       (∀ n, 0 ≤ r n ∧ r n < 1) →
       ∀ p ∈ Sampler.sampleFromDensity grid r, inBox p) ∧
    (∀ (pos : ℕ → ℚ × ℚ) (s : KMeans.KMState),
       (∀ i, inBox (pos i)) →
       ∀ k, inBox ((KMeans.runKMeans pos s).centroids k)) ∧
    (∀ (pools : ℕ → List ℕ) (cmap : ℕ → ℕ) (tpos cents : ℕ → ℚ × ℚ)
       (labels : List ℕ) (cursors : ℕ → ℕ) (out : List (ℚ × ℚ)),
       (∀ j, inBox (tpos j)) → (∀ k, inBox (cents k)) →
       Pairing.assignAll pools cmap tpos cents labels cursors = some out →
       ∀ p ∈ out, inBox p) ∧
    (∀ (grid : List ℚ) (r : ℕ → ℚ) (s : KMeans.KMState)
       (pools : ℕ → List ℕ) (cmap : ℕ → ℕ) (labels : List ℕ)
       (cursors : ℕ → ℕ) (out : List (ℚ × ℚ)),
       grid.length ≤ Sampler.GRID_SIZE * Sampler.GRID_SIZE →
       (∀ n, 0 ≤ r n ∧ r n < 1) →
       Pairing.assignAll pools cmap
         (fun j => (Sampler.sampleFromDensity grid r).getD j (0, 0))
         ((KMeans.runKMeans
             (fun j => (Sampler.sampleFromDensity grid r).getD j (0, 0))
             s).centroids)
         labels cursors = some out →
       ∀ p ∈ out, inBox p) := by
  refine ⟨?_, sampleFromDensity_mem_box, runKMeans_centroids_inBox, ?_, ?_⟩
  case refine_2 =>
    intro pools cmap tpos cents labels cursors out htpos hcents h
    exact assignAll_mem_inBox pools cmap tpos cents htpos hcents labels cursors out h
  case refine_3 =>
    intro grid r s pools cmap labels cursors out hlen hr h
    have htpos := sampler_getD_inBox grid r hlen hr
    exact assignAll_mem_inBox pools cmap _ _ htpos
      (runKMeans_centroids_inBox _ s htpos) labels cursors out h
  · intro sinF lengthF src_atoms params target_buf source_buf idx a hs ht hmain
    by_cases hn : idx ≥ Physics.PHYS_N
    · simp [Physics.cs_main, if_pos hn] at hmain
    · by_cases hht : params.has_targets > 1/2
      · simp only [Physics.cs_main, if_neg hn, if_pos hht,
          Option.some.injEq] at hmain
        subst hmain
        have ht0 : 0 ≤ clampQ params.morph_t 0 1 := clampQ_lower (by norm_num)
        have ht1 : clampQ params.morph_t 0 1 ≤ 1 := clampQ_upper _ _ _
        have hsm := smoothstep_mem ht0 ht1
        obtain ⟨h1, h2, h3, h4⟩ := hs idx
        obtain ⟨g1, g2, g3, g4⟩ := ht idx
        have hx := mixQ_mem ⟨h1, h2⟩ ⟨g1, g2⟩ hsm
        have hy := mixQ_mem ⟨h3, h4⟩ ⟨g3, g4⟩ hsm
        exact ⟨hx.1, hx.2, hy.1, hy.2⟩
      · simp only [Physics.cs_main, if_neg hn, if_neg hht,
          Option.some.injEq] at hmain
        subst hmain
        exact ⟨clampQ_lower (by norm_num), clampQ_upper _ _ _,
          clampQ_lower (by norm_num), clampQ_upper _ _ _⟩

/-- C3 (witness): the physics part applied at a concrete wander-mode
input (zero state, `dt = 0`), and the sampler part applied to the
first sample of the all-zero grid. -/
theorem claim_positions_in_box_witness :
    inBox (Physics.Atom.mk ((0 : ℚ), (0 : ℚ)) ((0 : ℚ), (0 : ℚ))).pos ∧
    inBox (((1/2 : ℚ) * 2 - 1) * (85/100), ((1/2 : ℚ) * 2 - 1) * (85/100)) := by
  constructor
  · refine claim_positions_in_box.1 (fun _ => 0) (fun _ => 0)
      (fun _ => ⟨(0, 0), (0, 0)⟩) ⟨0, 0, 0, 0⟩ (fun _ => (0, 0))
      (fun _ => (0, 0)) 0 ⟨(0, 0), (0, 0)⟩
      (fun j => by norm_num [inBox]) (fun j => by norm_num [inBox]) ?_
    norm_num [Physics.cs_main, Physics.PHYS_N, Physics.BOUND,
      Physics.MAX_VEL, clampQ, Prod.ext_iff]
  · refine claim_positions_in_box.2.1 [] (fun _ => 1/2)
      (by norm_num [Sampler.GRID_SIZE]) (fun n => by norm_num) _ ?_
    simp only [Sampler.sampleFromDensity, List.sum_nil]
    rw [if_pos trivial]
    exact List.mem_map.2 ⟨0, List.mem_range.2 (by norm_num [Sampler.N_ATOMS]), rfl⟩

/-- C4: at the start of every k-means Accumulate (update) pass, the
accumulators `sum_x`, `sum_y`, `counts` are all zero — each iteration of
the `runKMeans` loop first clears them through a host `writeBuffer`
(`hostClear`), then runs assign → update → divide in one submission —
and the divide kernel (the revision paired with ot_gpu.js) performs no
in-kernel stores to the accumulators. -/
theorem claim_accumulator_clearing :
    (∀ (pos : ℕ → ℚ × ℚ) (s : KMeans.KMState) (k : ℕ),
       (KMeans.assignPass pos (KMeans.hostClear s)).acc.sumx k = 0 ∧
       (KMeans.assignPass pos (KMeans.hostClear s)).acc.sumy k = 0 ∧
       (KMeans.assignPass pos (KMeans.hostClear s)).acc.counts k = 0) ∧
    (∀ s : KMeans.KMState, (KMeans.dividePass s).acc = s.acc) ∧
    (∀ (pos : ℕ → ℚ × ℚ) (n : ℕ) (s : KMeans.KMState),
       KMeans.kmIter pos n s =
         KMeans.dividePass (KMeans.updatePass pos n
           (KMeans.assignPass pos (KMeans.hostClear s)))) :=
  ⟨fun _ _ _ => ⟨rfl, rfl, rfl⟩, fun _ => rfl, fun _ _ _ => rfl⟩

/-- C5: with the configured constants (`N = 2,000,000` and
`SCALE = 1024` from constants.js), the k-means accumulation cannot
overflow: `N · SCALE · 1 ≤ i32_max`, and after any accumulate pass over
at most N points with coordinates in `[-1, 1]` — including all N points
landing in one cluster — every accumulator stays within signed 32-bit
range (hence so does every intermediate atomicAdd result, which is the
same sum over a shorter prefix). -/
theorem claim_no_overflow :
    (KMeans.KM_N : ℤ) * KMeans.SCALE_INT * 1 ≤ KMeans.I32_MAX ∧
    ∀ (pos : ℕ → ℚ × ℚ) (n : ℕ) (s : KMeans.KMState) (k : ℕ),
      n ≤ KMeans.KM_N → (∀ i, inBox (pos i)) →
      |(KMeans.updatePass pos n (KMeans.hostClear s)).acc.sumx k| ≤ KMeans.I32_MAX ∧
      |(KMeans.updatePass pos n (KMeans.hostClear s)).acc.sumy k| ≤ KMeans.I32_MAX := by
  constructor
  · norm_num [KMeans.KM_N, KMeans.SCALE_INT, KMeans.I32_MAX]
  · intro pos n s k hn hpos
    have hb := acc_fold_bound pos s.labels hpos n k
    have hle : (n : ℤ) * KMeans.SCALE_INT ≤ KMeans.I32_MAX := by
      have hnz : (n : ℤ) ≤ (KMeans.KM_N : ℤ) := by exact_mod_cast hn
      have h1 : (n : ℤ) * KMeans.SCALE_INT ≤ (KMeans.KM_N : ℤ) * KMeans.SCALE_INT := by
        have : (0 : ℤ) ≤ KMeans.SCALE_INT := by norm_num [KMeans.SCALE_INT]
        exact mul_le_mul_of_nonneg_right hnz this
      calc (n : ℤ) * KMeans.SCALE_INT ≤ (KMeans.KM_N : ℤ) * KMeans.SCALE_INT := h1
        _ ≤ KMeans.I32_MAX := by norm_num [KMeans.KM_N, KMeans.SCALE_INT, KMeans.I32_MAX]
    exact ⟨le_trans hb.1 hle, le_trans hb.2 hle⟩

/-- C5 (witness): the overflow bound applied to two points at `(1, 1)`
all landing in cluster 0. -/
theorem claim_no_overflow_witness :
    |(KMeans.updatePass (fun _ => ((1 : ℚ), (1 : ℚ))) 2
        (KMeans.hostClear ⟨KMeans.zeroAcc, fun _ => (0, 0), fun _ => 0⟩)).acc.sumx 0| ≤
      KMeans.I32_MAX :=
  (claim_no_overflow.2 (fun _ => (1, 1)) 2 ⟨KMeans.zeroAcc, fun _ => (0, 0), fun _ => 0⟩ 0
    (by norm_num [KMeans.KM_N]) (fun i => by norm_num [inBox])).1

/-- C6: the intra-cluster pairing assigns every source atom a target:
the loop over any label list always succeeds (the round-robin pool
access is taken modulo the pool length, so it is always in bounds) and
produces exactly one target per atom; when the matched target cluster
is empty, the atom receives that centroid's own position and the
cursors are left unchanged. -/
theorem claim_pairing_total :
    (∀ (pools : ℕ → List ℕ) (cmap : ℕ → ℕ) (tpos cents : ℕ → ℚ × ℚ)
       (labels : List ℕ) (cursors : ℕ → ℕ),
       ∃ out, Pairing.assignAll pools cmap tpos cents labels cursors = some out ∧
         out.length = labels.length) ∧
    (∀ (pools : ℕ → List ℕ) (cmap : ℕ → ℕ) (tpos cents : ℕ → ℚ × ℚ)
       (cursors : ℕ → ℕ) (lbl : ℕ),
       pools (cmap lbl) = [] →
       Pairing.assignStep pools cmap tpos cents cursors lbl =
         some (cents (cmap lbl), cursors)) := by
  refine ⟨fun pools cmap tpos cents => assignAll_isSome pools cmap tpos cents, ?_⟩
  intro pools cmap tpos cents cursors lbl h
  simp only [Pairing.assignStep]
  rw [if_pos (by simp [h])]

/-- C6 (witness): the empty-cluster fallback at a concrete input — all
pools empty, so atom with label 7 receives centroid 7's position. -/
theorem claim_pairing_total_witness :
    Pairing.assignStep (fun _ => ([] : List ℕ)) (fun k => k)
      (fun _ => ((0 : ℚ), (0 : ℚ))) (fun _ => ((3 : ℚ), (4 : ℚ)))
      (fun _ => 0) 7 = some (((3 : ℚ), (4 : ℚ)), fun _ => 0) :=
  claim_pairing_total.2 (fun _ => []) (fun k => k) (fun _ => (0, 0))
    (fun _ => (3, 4)) (fun _ => 0) 7 rfl

/-- C7: the NCA produces alpha values in `[0, 1]` in both back-ends:
the MLP path clamps channel 0 to `[0, 1]` at extraction, and the
reaction-diffusion fallback clamps the single-channel state to `[0, 1]`
at every step, including the seeded initial state. -/
theorem claim_nca_alpha_unit :
    (∀ (state : ℕ → ℚ) (i : ℕ), i < NCA.W * NCA.H →
       0 ≤ NCA.extract state i ∧ NCA.extract state i ≤ 1) ∧
    (∀ (goal r : ℕ → ℚ) (i : ℕ),
       0 ≤ NCA.rdsSeed goal r i ∧ NCA.rdsSeed goal r i ≤ 1) ∧
    (∀ (goal r : ℕ → ℚ) (steps i : ℕ), i < NCA.W * NCA.H →
       0 ≤ NCA.runRDS goal r steps i ∧ NCA.runRDS goal r steps i ≤ 1) := by
  have hseed : ∀ (goal r : ℕ → ℚ) (i : ℕ),
      0 ≤ NCA.rdsSeed goal r i ∧ NCA.rdsSeed goal r i ≤ 1 := by
    intro goal r i
    unfold NCA.rdsSeed
    exact ⟨le_max_left _ _, max_le (by norm_num) (min_le_left _ _)⟩
  refine ⟨?_, hseed, ?_⟩
  · intro state i hi
    unfold NCA.extract
    rw [if_pos hi]
    exact ⟨clampQ_lower (by norm_num), clampQ_upper _ _ _⟩
  · intro goal r steps i hi
    cases steps with
    | zero => exact hseed goal r i
    | succ m =>
      unfold NCA.runRDS
      rw [Function.iterate_succ_apply']
      unfold NCA.nca_step
      rw [if_pos hi]
      exact ⟨clampQ_lower (by norm_num), clampQ_upper _ _ _⟩

/-- C7 (witness): extraction of an out-of-range state value and a
64-step reaction-diffusion run, both at cell 0. -/
theorem claim_nca_alpha_unit_witness :
    (0 ≤ NCA.extract (fun _ => 2) 0 ∧ NCA.extract (fun _ => 2) 0 ≤ 1) ∧
    (0 ≤ NCA.runRDS (fun _ => 1) (fun _ => 1/2) 64 0 ∧
     NCA.runRDS (fun _ => 1) (fun _ => 1/2) 64 0 ≤ 1) :=
  ⟨claim_nca_alpha_unit.1 (fun _ => 2) 0 (by norm_num [NCA.W, NCA.H]),
   claim_nca_alpha_unit.2.2 (fun _ => 1) (fun _ => 1/2) 64 0
     (by norm_num [NCA.W, NCA.H])⟩

/-- C8: if the density grid sums to zero, the sampler returns positions
that all lie within the interior box `[-0.85, 0.85]²`, and the OT
round-robin pairing still succeeds on targets taken from that
output. -/
theorem claim_zero_density_fallback (grid : List ℚ) (r : ℕ → ℚ)
    (h0 : grid.sum = 0) (hr : ∀ n, 0 ≤ r n ∧ r n < 1) :
    (∀ p ∈ Sampler.sampleFromDensity grid r, inBox085 p) ∧
    (∀ (pools : ℕ → List ℕ) (cmap : ℕ → ℕ) (cents : ℕ → ℚ × ℚ)
       (labels : List ℕ) (cursors : ℕ → ℕ),
       ∃ out, Pairing.assignAll pools cmap
           (fun j => (Sampler.sampleFromDensity grid r).getD j (0, 0))
           cents labels cursors = some out ∧ out.length = labels.length) :=
  ⟨sampleFromDensity_zero_mem grid r h0 hr,
   fun _ _ _ labels cursors => assignAll_isSome _ _ _ _ labels cursors⟩

/-- C8 (witness): the fallback theorem applied to the grid `[0, 0]` with
the constant random stream `1/2`, instantiated at the first sample. -/
theorem claim_zero_density_fallback_witness :
    inBox085 (((1/2 : ℚ) * 2 - 1) * (85/100), ((1/2 : ℚ) * 2 - 1) * (85/100)) := by
  refine (claim_zero_density_fallback [0, 0] (fun _ => 1/2)
    (by simp) (fun n => by norm_num)).1 _ ?_
  simp only [Sampler.sampleFromDensity, List.sum_cons, List.sum_nil, add_zero]
  rw [if_pos trivial]
  exact List.mem_map.2 ⟨0, List.mem_range.2 (by norm_num [Sampler.N_ATOMS]), rfl⟩

/-- C9: a `goToShape` call made while the `transitioning` flag is set is
rejected — it returns null, performs none of the pipeline actions
(no NCA, no sampling, no OT assignment, no buffer writes) and leaves the
entire orchestrator state, including the source/target mirrors and the
morph state, unchanged; nothing is queued. -/
theorem claim_reentrancy (goalOf : String → List ℚ) (runNcaF : List ℚ → List ℚ)
    (r : ℕ → ℚ) (assignF : (ℕ → ℚ × ℚ) → List (ℚ × ℚ) → (ℕ → ℚ × ℚ))
    (name : String) (s : Orchestrator.OrchState)
    (h : s.transitioning = true) :
    Orchestrator.goToShape goalOf runNcaF r assignF name s = (none, s, []) := by
  unfold Orchestrator.goToShape
  rw [if_pos h]

/-- C9 (witness): a rejected call at a concrete in-flight state. -/
theorem claim_reentrancy_witness :
    Orchestrator.goToShape (fun _ => []) (fun g => g) (fun _ => 0)
      (fun _ _ => fun _ => (0, 0)) "circle"
      ⟨true, fun _ => (0, 0), fun _ => (0, 0), 0, 0, 0, 0, "idle"⟩ =
      (none, ⟨true, fun _ => (0, 0), fun _ => (0, 0), 0, 0, 0, 0, "idle"⟩, []) :=
  claim_reentrancy (fun _ => []) (fun g => g) (fun _ => 0)
    (fun _ _ => fun _ => (0, 0)) "circle"
    ⟨true, fun _ => (0, 0), fun _ => (0, 0), 0, 0, 0, 0, "idle"⟩ rfl

/-- C10 (counterexample): the seeded positions are NOT strictly inside
the box `[-0.85, 0.85]²`: `Math.random()` may return 0 (the stream
`fun _ => 0` satisfies `0 ≤ r < 1`), and then the seeded position is
exactly `(-0.85, -0.85)`, on the boundary. -/
theorem claim_seeding_cex :
    ((0 : ℚ) ≤ 0 ∧ (0 : ℚ) < 1) ∧
    ¬ strictlyInside085 (Seeding.seedAtoms (fun _ => 0) 0).pos := by
  constructor
  · exact ⟨le_refl 0, by norm_num⟩
  · norm_num [strictlyInside085, Seeding.seedAtoms]

/-- C10 (amended): at startup every seeded atom has its position in the
half-open box `[-0.85, 0.85) × [-0.85, 0.85)` (hence inside the closed
interior box and inside `[-1, 1]²`) with exactly zero velocity; the
identical seed data is written to both ping-pong buffers, and the CPU
source and target mirrors are initialised to those same positions. -/
theorem claim_seeding (r : ℕ → ℚ) (hr : ∀ n, 0 ≤ r n ∧ r n < 1) (i : ℕ) :
    inBox085 (Seeding.seedAtoms r i).pos ∧
    (Seeding.seedAtoms r i).pos.1 < 85/100 ∧
    (Seeding.seedAtoms r i).pos.2 < 85/100 ∧
    (Seeding.seedAtoms r i).vel = (0, 0) ∧
    Seeding.atomBuf 0 r i = Seeding.atomBuf 1 r i ∧
    Seeding.cpuSourceInit r i = (Seeding.seedAtoms r i).pos ∧
    Seeding.cpuTargetInit r i = (Seeding.seedAtoms r i).pos ∧
    inBox (Seeding.seedAtoms r i).pos := by
  obtain ⟨ha0, ha1⟩ := hr (2 * i)
  obtain ⟨hb0, hb1⟩ := hr (2 * i + 1)
  unfold Seeding.seedAtoms Seeding.atomBuf Seeding.cpuSourceInit Seeding.cpuTargetInit
  dsimp only
  exact ⟨⟨by nlinarith, by nlinarith, by nlinarith, by nlinarith⟩,
    by nlinarith, by nlinarith, rfl, rfl, rfl, rfl,
    ⟨by nlinarith, by nlinarith, by nlinarith, by nlinarith⟩⟩

/-- C10 (witness): the seeding theorem at the constant random stream
`1/2` (all atoms seeded at the origin), atom 0. -/
theorem claim_seeding_witness :
    inBox085 (Seeding.seedAtoms (fun _ => 1/2) 0).pos ∧
    (Seeding.seedAtoms (fun _ => 1/2) 0).pos.1 < 85/100 ∧
    (Seeding.seedAtoms (fun _ => 1/2) 0).pos.2 < 85/100 ∧
    (Seeding.seedAtoms (fun _ => 1/2) 0).vel = (0, 0) ∧
    Seeding.atomBuf 0 (fun _ => 1/2) 0 = Seeding.atomBuf 1 (fun _ => 1/2) 0 ∧
    Seeding.cpuSourceInit (fun _ => 1/2) 0 = (Seeding.seedAtoms (fun _ => 1/2) 0).pos ∧
    Seeding.cpuTargetInit (fun _ => 1/2) 0 = (Seeding.seedAtoms (fun _ => 1/2) 0).pos ∧
    inBox (Seeding.seedAtoms (fun _ => 1/2) 0).pos :=
  claim_seeding (fun _ => 1/2) (fun n => by norm_num) 0

end Tofu
